import Mathlib

/-!
Shallow embedding of the async_python_runner repository.

The repository contains two parallel supervisor implementations:

* `src/models/custom_process.py` (`CustomProcess`, integer statuses from
  `src/models/process_status.py`) used by `src/async_python_runner.py`
  (`AsyncRunner`), and
* `src/aync_process_runner.py` (`Custom_Process` with string statuses and
  timestamps, `AsyncProcessRunner`).

Both are embedded here.  Python `datetime` values are modelled as `Int`
timestamps and `timedelta` as `Int`; `multiprocessing.Process` (an external
library collaborator) is modelled by `MPProcess` below, with the assertion
errors its `start`/`join` raise carried in `Except`.  A Python method that
mutates `self` and may raise becomes a function returning
`Except PyError Unit × State`: the state component is the object after the
call, including mutations performed before an exception was raised
(Python leaves such partial mutations in place).
-/

/-- Errors observable from handle operations.  `assertionError` models the
`AssertionError` raised by CPython's `multiprocessing.Process` on a double
start or a join of an unstarted process.  `invalidTransition` is modelled
from the spec (section 7 names an `InvalidTransition` error kind); the
repository code never constructs it — it is declared only so that the spec
claim about it can be stated and compared against what the code produces. -/
inductive PyError where
  | assertionError (msg : String)
  | invalidTransition
deriving DecidableEq, Repr

deriving instance DecidableEq for Except

/-- Model of the external `multiprocessing.Process` object: whether it has
been started and joined, and the exit code its workload will produce.  The
repository never reads `exitcode`; it is carried so that statements about
handles whose process exited unsuccessfully can be made. -/
structure MPProcess where
  started : Bool
  joined : Bool
  exitcode : Int
deriving DecidableEq, Repr

/-- CPython `Process.start`: asserts the process has not been started. -/
def MPProcess.startP (p : MPProcess) : Except PyError MPProcess :=
  if p.started then .error (.assertionError "cannot start a process twice")
  else .ok { p with started := true }

/-- CPython `Process.join`: asserts the process has been started (joining an
already-joined process succeeds and returns immediately). -/
def MPProcess.joinP (p : MPProcess) : Except PyError MPProcess :=
  if p.started then .ok { p with joined := true }
  else .error (.assertionError "can only join a started process")

/- Statuses from `src/models/process_status.py`:
`NOT_STARTED, RUNNING, COMPLETED, FAILED, KILLED = range(5)`. -/
namespace ProcessStatus

def NOT_STARTED : Nat := 0

def RUNNING : Nat := 1

def COMPLETED : Nat := 2

def FAILED : Nat := 3

def KILLED : Nat := 4

end ProcessStatus

/-- Terminal statuses per the spec: COMPLETED, FAILED, KILLED. -/
def isTerminalNat (s : Nat) : Bool :=
  s == ProcessStatus.COMPLETED || s == ProcessStatus.FAILED
    || s == ProcessStatus.KILLED

/-- `CustomProcess` from `src/models/custom_process.py`: `name`, the wrapped
`multiprocessing.Process`, and an integer `status` initialised to
`ProcessStatus.NOT_STARTED` by `__init__`. -/
structure CustomProcess where
  name : String
  process : MPProcess
  status : Nat
deriving DecidableEq, Repr

/-- `CustomProcess.__init__`. -/
def CustomProcess.mkNew (name : String) (process : MPProcess) : CustomProcess :=
  { name := name, process := process, status := ProcessStatus.NOT_STARTED }

/-- `CustomProcess.start`: sets `self.status = ProcessStatus.RUNNING`, logs,
then calls `self.process.start()`.  The status write happens before the
library call, so it persists even when the library call raises. -/
def CustomProcess.startM (c : CustomProcess) :
    Except PyError Unit × CustomProcess :=
  let c1 := { c with status := ProcessStatus.RUNNING }
  match c1.process.startP with
  | .ok p => (.ok (), { c1 with process := p })
  | .error e => (.error e, c1)

/-- `CustomProcess.join`: calls `self.process.join()`, logs, then sets
`self.status = ProcessStatus.COMPLETED`.  When the library call raises
(process never started) no field of the handle is mutated. -/
def CustomProcess.joinM (c : CustomProcess) :
    Except PyError Unit × CustomProcess :=
  match c.process.joinP with
  | .ok p => (.ok (), { c with process := p, status := ProcessStatus.COMPLETED })
  | .error e => (.error e, c)

/-- A lifecycle call on a `CustomProcess`. -/
inductive CPOp where
  | startOp
  | joinOp
deriving DecidableEq, Repr

/-- Apply one lifecycle call, keeping the post-call state (the caller is
assumed to catch any raised exception and continue, as the mutations
performed before the raise persist on the object either way). -/
def applyCP (c : CustomProcess) : CPOp → CustomProcess
  | .startOp => c.startM.2
  | .joinOp => c.joinM.2

/-- The sequence of `status` values observed after each call of a call
sequence. -/
def cpStatusTrace (c : CustomProcess) : List CPOp → List Nat
  | [] => []
  | op :: rest =>
    let c1 := applyCP c op
    c1.status :: cpStatusTrace c1 rest

/-- A concrete handle whose process is already started (as after `start()`). -/
def startedCP : CustomProcess :=
  { name := "w", process := { started := true, joined := false, exitcode := 0 },
    status := ProcessStatus.RUNNING }

/-- A concrete freshly-constructed handle. -/
def freshCP : CustomProcess :=
  CustomProcess.mkNew "w" { started := false, joined := false, exitcode := 0 }

/-- `Custom_Process` from `src/aync_process_runner.py`: string status,
`datetime` start/end times and a `timedelta` duration.  Times are `Option Int`
attribute slots: `some t` is an attribute holding timestamp `t` (Python
`__init__` always assigns them, from default parameters evaluated once at
class-definition time). -/
structure Custom_Process where
  name : String
  process : MPProcess
  status : String
  start_time : Option Int
  end_time : Option Int
  run_duration : Int
deriving DecidableEq, Repr

/-- `Custom_Process.__init__` with all defaulted parameters left at their
defaults: `status="Not Started"`, `start_time=end_time=datetime.now()`
evaluated once when the class definition was executed (`moduleLoadTime`),
`run_duration=timedelta(microseconds=0)`. -/
def Custom_Process.init (name : String) (process : MPProcess)
    (moduleLoadTime : Int) : Custom_Process :=
  { name := name, process := process, status := "Not Started",
    start_time := some moduleLoadTime, end_time := some moduleLoadTime,
    run_duration := 0 }

/-- `Custom_Process.start` called at wall-clock time `t`: assigns
`self.start_time = datetime.now()`, `self.status = "Running"`, then calls
`self.process.start()` (whose assertion may raise, after the two field
writes). -/
def Custom_Process.startM (c : Custom_Process) (t : Int) :
    Except PyError Unit × Custom_Process :=
  let c1 := { c with start_time := some t, status := "Running" }
  match c1.process.startP with
  | .ok p => (.ok (), { c1 with process := p })
  | .error e => (.error e, c1)

/-- `Custom_Process.join` returning at wall-clock time `t`: calls
`self.process.join()` (raising, with no field mutated, when the process was
never started), then assigns `self.end_time = datetime.now()`,
`self.run_duration = self.end_time - self.start_time`,
`self.status = "Completed"`.  `start_time` is always an assigned attribute
after `__init__`, so the `getD 0` default is never the value used. -/
def Custom_Process.joinM (c : Custom_Process) (t : Int) :
    Except PyError Unit × Custom_Process :=
  match c.process.joinP with
  | .ok p =>
    (.ok (), { c with process := p, end_time := some t,
                      run_duration := t - c.start_time.getD 0,
                      status := "Completed" })
  | .error e => (.error e, c)

/-- `Custom_Process.get_run_duration`. -/
def Custom_Process.get_run_duration (c : Custom_Process) : Int :=
  c.run_duration

/-- Terminal statuses in the string representation of
`src/aync_process_runner.py`. -/
def isTerminalStr (s : String) : Bool :=
  s == "Completed" || s == "Failed" || s == "Killed"

/-- A concrete running `Custom_Process` whose workload exits with the failure
code 1. -/
def failingRunningCP : Custom_Process :=
  { name := "w", process := { started := true, joined := false, exitcode := 1 },
    status := "Running", start_time := some 2, end_time := some 0,
    run_duration := 0 }

/-- One iteration of a Python `while True` loop either continues with the
next iteration or exits the loop (via `break`/`return`). -/
inductive LoopControl where
  | continueLoop
  | exitLoop
deriving DecidableEq, Repr

/-- Log records emitted by `AsyncProcessRunner.check_processes`, mirroring
its four format strings. -/
inductive LogEvent where
  | infoRunning (name : String)
  | infoCompleted (name : String) (dur : Int)
  | errorFailed (name : String)
  | errorKilled (name : String)
deriving DecidableEq, Repr

/-- One iteration of the `while True` body of
`AsyncProcessRunner.check_processes`: a `"Running"` handle gets a liveness
log and a 60-unit sleep before the `continue`; otherwise the terminal
outcome (if any) is logged and a 1-unit sleep ends the body.  No branch of
the body contains a `break` or `return`, so every iteration continues the
loop. -/
def check_processes_body (p : Custom_Process) : List LogEvent × LoopControl :=
  if p.status = "Running" then
    ([.infoRunning p.name], .continueLoop)
  else
    let logs :=
      if p.status = "Completed" then [.infoCompleted p.name p.get_run_duration]
      else if p.status = "Failed" then [.errorFailed p.name]
      else if p.status = "Killed" then [.errorKilled p.name]
      else []
    (logs, .continueLoop)

/-- Log records emitted by `k` consecutive iterations of `check_processes`
on a handle `p`.  Nothing in the loop mutates `p`, and in
`AsyncProcessRunner` no code ever calls `join` on it, so its status is the
same at every iteration. -/
def check_processes_logs (p : Custom_Process) : Nat → List LogEvent
  | 0 => []
  | k + 1 => (check_processes_body p).1 ++ check_processes_logs p k

/-- A concrete `Custom_Process` in the terminal status `"Completed"` with
run duration 3. -/
def completedCP : Custom_Process :=
  { name := "w", process := { started := true, joined := true, exitcode := 0 },
    status := "Completed", start_time := some 1, end_time := some 4,
    run_duration := 3 }

/-- Observable outcomes of `AsyncProcessRunner.main`: either the
`print`-then-`exit(-1)` path taken when discovery found nothing, or entry
into the `asyncio.gather` over start/monitor tasks with the created
handles. -/
inductive APROutcome where
  | exitedWith (code : Int)
  | gatherPhase (handles : List Custom_Process)
deriving DecidableEq, Repr

/-- `AsyncProcessRunner.main`, with discovery abstracted to the list of
discovered module names and `t` the class-definition timestamp used by the
`Custom_Process` defaults: an empty list prints "No sub-processes found"
and calls `exit(-1)` before `create_sub_processes` runs, so no handle is
created; otherwise one handle per module is created and the gather over
`start_process`/`check_processes` tasks begins. -/
def AsyncProcessRunner_main (mods : List String) (t : Int) : APROutcome :=
  if mods.isEmpty then .exitedWith (-1)
  else .gatherPhase (mods.map fun m =>
    Custom_Process.init m { started := false, joined := false, exitcode := 0 } t)

namespace AsyncRunner

/-- Synchronous events produced while `AsyncRunner.main` evaluates its two
list comprehensions. -/
inductive Ev where
  | startEv (name : String)
  | joinEv (name : String)
deriving DecidableEq, Repr

/-- `AsyncRunner.create_sub_processes`: one `CustomProcess` per discovered
module, wrapping a fresh `multiprocessing.Process`, in discovery order. -/
def createHandles (mods : List String) : List CustomProcess :=
  mods.map fun m =>
    CustomProcess.mkNew m { started := false, joined := false, exitcode := 0 }

/-- Evaluation of the comprehension `[p.start() for p in self.processes]`:
each `start()` runs synchronously, in list order, and its return value
(`None`, since `CustomProcess.start` returns `None`) is collected.  An
exception aborts the comprehension and propagates. -/
def startComp :
    List CustomProcess →
      Except PyError (List Ev × List CustomProcess × List (Option Unit))
  | [] => .ok ([], [], [])
  | c :: cs =>
    match c.startM with
    | (.ok _, c1) =>
      match startComp cs with
      | .ok (evs, hs, rs) => .ok (.startEv c.name :: evs, c1 :: hs, none :: rs)
      | .error e => .error e
    | (.error e, _) => .error e

/-- Evaluation of the comprehension `[p.join() for p in self.processes]`:
each `join()` runs synchronously, in list order, returning `None`. -/
def joinComp :
    List CustomProcess →
      Except PyError (List Ev × List CustomProcess × List (Option Unit))
  | [] => .ok ([], [], [])
  | c :: cs =>
    match c.joinM with
    | (.ok _, c1) =>
      match joinComp cs with
      | .ok (evs, hs, rs) => .ok (.joinEv c.name :: evs, c1 :: hs, none :: rs)
      | .error e => .error e
    | (.error e, _) => .error e

/-- `AsyncRunner.main`: builds the handles, evaluates the start
comprehension then the join comprehension (all synchronously, while the
`tasks` list is being built), and returns the event trace, the final
handles, and the collected comprehension values. -/
def mainRun (mods : List String) :
    Except PyError (List Ev × List CustomProcess × List (Option Unit)) :=
  match startComp (createHandles mods) with
  | .error e => .error e
  | .ok (e1, hs1, r1) =>
    match joinComp hs1 with
    | .error e => .error e
    | .ok (e2, hs2, r2) => .ok (e1 ++ e2, hs2, r1 ++ r2)

/-- The event trace of `AsyncRunner.main`. -/
def mainEvents (mods : List String) : List Ev :=
  match mainRun mods with
  | .ok (evs, _, _) => evs
  | .error _ => []

/-- The handle states after the start comprehension has evaluated but
before any `join()` runs. -/
def startStates (mods : List String) : List CustomProcess :=
  match startComp (createHandles mods) with
  | .ok (_, hs, _) => hs
  | .error _ => []

/-- The list passed to `asyncio.gather`:
`[task for task in (starts + joins) if task is not None]`. -/
def gatherArg (mods : List String) : List Unit :=
  match mainRun mods with
  | .ok (_, _, rs) => rs.filterMap id
  | .error _ => []

/-- Exit code of `AsyncRunner.run()` as a process: 0 when `main()` returns
normally from `asyncio.run`, 1 when an uncaught exception propagates. -/
def runExit (mods : List String) : Int :=
  match mainRun mods with
  | .ok _ => 0
  | .error _ => 1

/-- The handle produced by `start()` on a fresh handle named `m`. -/
def runningHandle (m : String) : CustomProcess :=
  { name := m, process := { started := true, joined := false, exitcode := 0 },
    status := ProcessStatus.RUNNING }

/-- The handle produced by `start()` then `join()` on a fresh handle. -/
def doneHandle (m : String) : CustomProcess :=
  { name := m, process := { started := true, joined := true, exitcode := 0 },
    status := ProcessStatus.COMPLETED }

end AsyncRunner

/-- `AsyncRunner.FILES_TO_IGNORE` from `src/async_python_runner.py`. -/
def FILES_TO_IGNORE : List String := ["__init__.py", "__pycache__", "__init__"]

/-- Python `name.endswith(".py")`, stated on the string's character list
(`.py` is ASCII, so character suffix and string suffix coincide). -/
def hasPySuffix (s : String) : Bool :=
  s.data.reverse.take 3 == [Char.ofNat 121, Char.ofNat 112, Char.ofNat 46]

/-- Python `name[:-3]`: the string with its last three characters removed. -/
def stripPy (s : String) : String :=
  String.mk (s.data.reverse.drop 3).reverse

/-- The file list returned by `get_files` in
`src/helpers/directory_searcher.py`: the entries of the target directory
(the `os.listdir` result restricted to plain files, abstracted here as the
input listing) that end in `".py"`. -/
def get_files_list (listing : List String) : List String :=
  listing.filter fun f => hasPySuffix f

/-- The `for module_names in list_of_modules:` loop of
`AsyncRunner.get_sub_processes`, which mutates the list it iterates over:
Python iterates by index, so `list_of_modules.remove(module_names)` (which
deletes the first occurrence of the value) shifts later elements one slot
left and the element now occupying the current slot is skipped by the next
index.  `fuel` bounds the iteration count: every iteration advances the
index by one and never lengthens the list, and the loop stops once the
index reaches the current length, so the initial length is enough fuel and
the fuel never cuts an iteration short.  `S` is the ignore list, `acc` the
`updated_modules` accumulator of names with the `.py` suffix stripped
(`module_names[:-3]`). -/
def modulesLoop (S : List String) :
    Nat → List String → Nat → List String → List String
  | 0, _, _, acc => acc
  | fuel + 1, lst, i, acc =>
    if h : i < lst.length then
      let x := lst.get ⟨i, h⟩
      if x ∈ S then modulesLoop S fuel (lst.erase x) (i + 1) acc
      else if hasPySuffix x then
        modulesLoop S fuel lst (i + 1) (acc ++ [stripPy x])
      else modulesLoop S fuel lst (i + 1) acc
    else acc

/-- The `updated_modules` list computed by `AsyncRunner.get_sub_processes`
from the discovered file list, with ignore list `S`. -/
def updated_modules (S : List String) (files : List String) : List String :=
  modulesLoop S files.length files 0 []

/-- The module names `AsyncRunner.get_sub_processes` hands to
`importlib.import_module` (each joined onto the module path), for a given
directory listing and the configured ignore list. -/
def get_sub_processes_names (listing : List String) : List String :=
  updated_modules FILES_TO_IGNORE (get_files_list listing)

/-- A timestamped lifecycle call on a `Custom_Process`: `start()` or
`join()` returning at wall-clock time `t`. -/
inductive HOp where
  | startOp (t : Int)
  | joinOp (t : Int)
deriving DecidableEq, Repr

/-- The wall-clock time at which a lifecycle call happens. -/
def HOp.time : HOp → Int
  | .startOp t => t
  | .joinOp t => t

/-- Apply one timestamped lifecycle call to a `Custom_Process`, keeping the
post-call state (mutations made before a raised library assertion persist
on the object). -/
def applyH (c : Custom_Process) : HOp → Custom_Process
  | .startOp t => (c.startM t).2
  | .joinOp t => (c.joinM t).2

/-- Apply a sequence of timestamped lifecycle calls in order. -/
def applyOps (c : Custom_Process) : List HOp → Custom_Process
  | [] => c
  | op :: rest => applyOps (applyH c op) rest

/-- The wall clock is monotone: starting from time `t`, each call in the
sequence happens no earlier than the previous one. -/
def chronoB : Int → List HOp → Bool
  | _, [] => true
  | t, op :: rest => decide (t ≤ op.time) && chronoB op.time rest

/-- Duration invariant of a `Custom_Process`: whenever the handle is in the
terminal status `"Completed"`, its `run_duration` equals
`end_time - start_time` and is non-negative; the statuses `"Failed"` and
`"Killed"` are never assigned by `start`/`join`. -/
def DurInv (c : Custom_Process) : Prop :=
  (c.status = "Completed" →
    c.run_duration = c.end_time.getD 0 - c.start_time.getD 0
      ∧ 0 ≤ c.run_duration)
    ∧ c.status ≠ "Failed" ∧ c.status ≠ "Killed"

/-- C1 counterexample.  A second `start()` and a premature `join()` do not
fail with an `InvalidTransition` error: the only failures are the process
library's assertion errors, and the double `start()` has already overwritten
`status` with `RUNNING` before the library call raises. -/
theorem c1_counterexample :
    (CustomProcess.startM startedCP).1
        = .error (.assertionError "cannot start a process twice")
      ∧ (CustomProcess.startM startedCP).1 ≠ .error .invalidTransition
      ∧ (CustomProcess.startM startedCP).2.status = ProcessStatus.RUNNING
      ∧ (CustomProcess.joinM freshCP).1
        = .error (.assertionError "can only join a started process")
      ∧ (CustomProcess.joinM freshCP).1 ≠ .error .invalidTransition := by
  decide

/-- C1 amended: a double `start()` and a `join()` before `start()` are
stopped only by the process library's assertion error — the code defines no
`InvalidTransition` error — and the double `start()` mutates the handle
(status set to `RUNNING`) before that error is raised, while a premature
`join()` raises before mutating the handle. -/
theorem c1_amended (c d : CustomProcess)
    (hc : c.process.started = true) (hd : d.process.started = false) :
    (CustomProcess.startM c).1
        = .error (.assertionError "cannot start a process twice")
      ∧ (CustomProcess.startM c).2.status = ProcessStatus.RUNNING
      ∧ (CustomProcess.joinM d).1
        = .error (.assertionError "can only join a started process")
      ∧ (CustomProcess.joinM d).2 = d := by
  unfold CustomProcess.startM CustomProcess.joinM MPProcess.startP MPProcess.joinP
  simp [hc, hd]

/-- C1 amended, witnessed at concrete handles. -/
theorem c1_witness :
    startedCP.process.started = true ∧ freshCP.process.started = false
      ∧ ((CustomProcess.startM startedCP).1
          = .error (.assertionError "cannot start a process twice")
        ∧ (CustomProcess.startM startedCP).2.status = ProcessStatus.RUNNING
        ∧ (CustomProcess.joinM freshCP).1
          = .error (.assertionError "can only join a started process")
        ∧ (CustomProcess.joinM freshCP).2 = freshCP) :=
  ⟨rfl, rfl, c1_amended startedCP freshCP rfl rfl⟩

/-- C2 counterexample.  A running handle whose workload exited with the
non-success code 1 is still set to status `"Completed"` by `join()`, not
`"Failed"`. -/
theorem c2_counterexample :
    failingRunningCP.process.exitcode = 1
      ∧ (Custom_Process.joinM failingRunningCP 5).2.status = "Completed"
      ∧ (Custom_Process.joinM failingRunningCP 5).2.status ≠ "Failed" := by
  decide

/-- C2 amended: when `join()` returns it records `end_time`, computes
`run_duration = end_time - start_time`, and unconditionally sets `status` to
`"Completed"`, regardless of the process's exit code; `"Failed"` and
`"Killed"` are never assigned by `join()`. -/
theorem c2_amended (c : Custom_Process) (t : Int)
    (h : c.process.started = true) :
    (Custom_Process.joinM c t).2.end_time = some t
      ∧ (Custom_Process.joinM c t).2.run_duration = t - c.start_time.getD 0
      ∧ (Custom_Process.joinM c t).2.status = "Completed"
      ∧ (Custom_Process.joinM c t).1 = .ok () := by
  unfold Custom_Process.joinM MPProcess.joinP
  simp [h]

/-- C2 amended, witnessed at the concrete failing handle. -/
theorem c2_witness :
    failingRunningCP.process.started = true
      ∧ ((Custom_Process.joinM failingRunningCP 5).2.end_time = some 5
        ∧ (Custom_Process.joinM failingRunningCP 5).2.run_duration
          = 5 - failingRunningCP.start_time.getD 0
        ∧ (Custom_Process.joinM failingRunningCP 5).2.status = "Completed"
        ∧ (Custom_Process.joinM failingRunningCP 5).1 = .ok ()) :=
  ⟨rfl, c2_amended failingRunningCP 5 rfl⟩

/-- C3 counterexample.  The call sequence `start(); join(); start()` drives
the status through `RUNNING, COMPLETED, RUNNING`: the final `start()` moves
the handle out of the terminal status `COMPLETED` back to `RUNNING` (the
library assertion it raises does not prevent the status write), so a
transition can leave a terminal state. -/
theorem c3_counterexample :
    cpStatusTrace freshCP [.startOp, .joinOp, .startOp]
        = [ProcessStatus.RUNNING, ProcessStatus.COMPLETED, ProcessStatus.RUNNING]
      ∧ isTerminalNat ProcessStatus.COMPLETED = true
      ∧ isTerminalNat ProcessStatus.RUNNING = false := by
  decide

/-- C3 amended: `start()` and `join()` are unguarded assignments, so
monotonicity holds only for the canonical call sequence: a freshly
constructed handle has status `NOT_STARTED`, and the sequence
`start(); join()` visits `RUNNING` then `COMPLETED`, each exactly once;
other call orders can re-enter `RUNNING` from the terminal status
`COMPLETED`, and `FAILED`/`KILLED` are never assigned. -/
theorem c3_amended (c : CustomProcess)
    (h1 : c.process.started = false) (h2 : c.status = ProcessStatus.NOT_STARTED) :
    c.status = ProcessStatus.NOT_STARTED
      ∧ cpStatusTrace c [.startOp, .joinOp]
        = [ProcessStatus.RUNNING, ProcessStatus.COMPLETED] := by
  refine ⟨h2, ?_⟩
  unfold cpStatusTrace applyCP cpStatusTrace applyCP cpStatusTrace
  unfold CustomProcess.startM CustomProcess.joinM MPProcess.startP MPProcess.joinP
  simp [h1]

/-- C3 amended, witnessed at the concrete fresh handle. -/
theorem c3_witness :
    freshCP.process.started = false
      ∧ freshCP.status = ProcessStatus.NOT_STARTED
      ∧ (freshCP.status = ProcessStatus.NOT_STARTED
        ∧ cpStatusTrace freshCP [.startOp, .joinOp]
          = [ProcessStatus.RUNNING, ProcessStatus.COMPLETED]) :=
  ⟨rfl, rfl, c3_amended freshCP rfl rfl⟩

/-- C6 counterexample.  A freshly constructed `Custom_Process` is in status
`"Not Started"` yet already has both `start_time` and `end_time` assigned
(to the default timestamp captured at class-definition time, here 7). -/
theorem c6_counterexample :
    (Custom_Process.init "w" { started := false, joined := false, exitcode := 0 } 7).status
        = "Not Started"
      ∧ (Custom_Process.init "w" { started := false, joined := false, exitcode := 0 } 7).start_time
        ≠ none
      ∧ (Custom_Process.init "w" { started := false, joined := false, exitcode := 0 } 7).end_time
        ≠ none := by
  decide

/-- C6 amended: a freshly constructed `Custom_Process` has status
`"Not Started"` but `start_time` and `end_time` are already set — both to
the default timestamp evaluated once when the class definition was executed
(shared by every handle constructed with defaults) — and `run_duration` is
zero; the `CustomProcess` variant stores no timestamps at all. -/
theorem c6_amended (name : String) (p : MPProcess) (t : Int) :
    (Custom_Process.init name p t).status = "Not Started"
      ∧ (Custom_Process.init name p t).start_time = some t
      ∧ (Custom_Process.init name p t).end_time = some t
      ∧ (Custom_Process.init name p t).run_duration = 0 :=
  ⟨rfl, rfl, rfl, rfl⟩

namespace AsyncRunner

/-- The start comprehension on freshly created handles: every `start()`
returns `None` successfully, emits its event in discovery order, and leaves
every handle `RUNNING`. -/
theorem startComp_createHandles (mods : List String) :
    startComp (createHandles mods)
      = .ok (mods.map Ev.startEv, mods.map runningHandle,
             mods.map fun _ => (none : Option Unit)) := by
  induction mods with
  | nil => rfl
  | cons m ms ih =>
    have h1 : createHandles (m :: ms)
        = CustomProcess.mkNew m { started := false, joined := false, exitcode := 0 }
          :: createHandles ms := rfl
    rw [h1, startComp, ih]
    rfl

/-- The join comprehension on running handles: every `join()` returns
`None` successfully, emits its event in order, and leaves every handle
`COMPLETED`. -/
theorem joinComp_runningHandles (mods : List String) :
    joinComp (mods.map runningHandle)
      = .ok (mods.map Ev.joinEv, mods.map doneHandle,
             mods.map fun _ => (none : Option Unit)) := by
  induction mods with
  | nil => rfl
  | cons m ms ih =>
    rw [List.map_cons, joinComp, ih]
    rfl

/-- `AsyncRunner.main` on any discovery result: no exception, the full
start trace precedes the full join trace, every handle ends `COMPLETED`,
and every collected comprehension value is `None`. -/
theorem mainRun_spec (mods : List String) :
    mainRun mods
      = .ok (mods.map Ev.startEv ++ mods.map Ev.joinEv,
             mods.map doneHandle,
             (mods.map fun _ => (none : Option Unit))
               ++ (mods.map fun _ => (none : Option Unit))) := by
  simp only [mainRun, startComp_createHandles, joinComp_runningHandles]

end AsyncRunner

/-- Helper: filtering `None` values out of a list consisting only of `None`
values leaves nothing. -/
theorem filterMap_id_map_none (l : List String) :
    List.filterMap id (l.map fun _ => (none : Option Unit)) = [] := by
  induction l with
  | nil => rfl
  | cons a l ih => simp [ih]

/-- C4.  The body of `check_processes` continues the `while True` loop from
every branch (there is no `break` or `return`), so the monitor never stops
polling a Handle and never terminates even when the Handle is terminal; and
a Handle observed `"Completed"` has its outcome logged again on every
iteration — here twice in two iterations — not exactly once. -/
theorem c4_monitor_loop :
    (∀ p : Custom_Process,
        (check_processes_body p).2 = LoopControl.continueLoop)
      ∧ check_processes_logs completedCP 2
        = [.infoCompleted "w" 3, .infoCompleted "w" 3] := by
  constructor
  · intro p
    unfold check_processes_body
    split <;> rfl
  · decide

/-- C5 counterexample.  `AsyncRunner.main` on an empty discovery result
creates no handle, raises nothing, and the run exits with code 0 — not with
a `NoWorkloadsError` and a non-zero exit code as claimed. -/
theorem c5_counterexample :
    AsyncRunner.mainRun ([] : List String) = .ok ([], [], [])
      ∧ AsyncRunner.createHandles [] = []
      ∧ AsyncRunner.runExit [] = 0 :=
  ⟨rfl, rfl, rfl⟩

/-- C5 amended: only `AsyncProcessRunner.main` guards against empty
discovery, and it does so by printing a message and calling `exit(-1)` — a
bare non-zero exit before any Handle is created, not a `NoWorkloadsError`
(no such error type exists in the code); with at least one workload it
creates one handle per module and enters the gather phase.  The
`AsyncRunner` variant performs no empty check: it exits with code 0 both on
an empty discovery result and on a non-empty one. -/
theorem c5_amended :
    AsyncProcessRunner_main [] 0 = .exitedWith (-1)
      ∧ AsyncProcessRunner_main ["a"] 0
        = .gatherPhase
            [Custom_Process.init "a"
              { started := false, joined := false, exitcode := 0 } 0]
      ∧ AsyncRunner.runExit [] = 0
      ∧ AsyncRunner.runExit ["a"] = 0 :=
  ⟨rfl, rfl, rfl, rfl⟩

/-- C7.  In `AsyncRunner.main` every `start()` is issued (synchronously,
while the task list is being built) before any `join()` is reached: after
the start comprehension every created handle is `RUNNING`, and the event
trace is all starts in discovery order followed by all joins. -/
theorem c7_fanout_before_fanin (mods : List String) :
    (AsyncRunner.startStates mods).all
        (fun h => h.status == ProcessStatus.RUNNING) = true
      ∧ AsyncRunner.mainEvents mods
        = mods.map AsyncRunner.Ev.startEv ++ mods.map AsyncRunner.Ev.joinEv := by
  constructor
  · simp only [AsyncRunner.startStates, AsyncRunner.startComp_createHandles]
    simp [List.all_eq_true, AsyncRunner.runningHandle]
  · simp only [AsyncRunner.mainEvents, AsyncRunner.mainRun_spec]

/-- C10.  Since `CustomProcess.start` and `CustomProcess.join` both return
`None`, the list passed to `asyncio.gather` is always empty; every start
and join has already executed synchronously while the task list was built,
and the event trace shows the joins executed sequentially in registry
(discovery) order after all starts — handle `i`'s join completes before
handle `i+1`'s join is called, never first-to-finish. -/
theorem c10_gather_empty (mods : List String) :
    AsyncRunner.gatherArg mods = []
      ∧ AsyncRunner.mainEvents mods
        = mods.map AsyncRunner.Ev.startEv ++ mods.map AsyncRunner.Ev.joinEv := by
  constructor
  · simp only [AsyncRunner.gatherArg, AsyncRunner.mainRun_spec]
    simp [List.filterMap_append, filterMap_id_map_none]
  · simp only [AsyncRunner.mainEvents, AsyncRunner.mainRun_spec]

/-- Helper: everything accumulated by the `get_sub_processes` loop is the
`.py`-stripped form of some element of `L` that is not in the ignore list,
provided the current list draws from `L` and the accumulator already
satisfies this. -/
theorem modulesLoop_mem (S L : List String) :
    ∀ (fuel : Nat) (lst : List String) (i : Nat) (acc : List String),
      (∀ x, x ∈ lst → x ∈ L) →
      (∀ m, m ∈ acc →
        ∃ x, x ∈ L ∧ x ∉ S ∧ hasPySuffix x = true ∧ m = stripPy x) →
      ∀ m, m ∈ modulesLoop S fuel lst i acc →
        ∃ x, x ∈ L ∧ x ∉ S ∧ hasPySuffix x = true ∧ m = stripPy x := by
  intro fuel
  induction fuel with
  | zero =>
    intro lst i acc hsub hacc m hm
    exact hacc m hm
  | succ fuel ih =>
    intro lst i acc hsub hacc m hm
    rw [modulesLoop] at hm
    by_cases h : i < lst.length
    · rw [dif_pos h] at hm
      by_cases hxS : lst.get ⟨i, h⟩ ∈ S
      · rw [if_pos hxS] at hm
        exact ih (lst.erase (lst.get ⟨i, h⟩)) (i + 1) acc
          (fun y hy => hsub y (List.mem_of_mem_erase hy)) hacc m hm
      · rw [if_neg hxS] at hm
        by_cases hpy : hasPySuffix (lst.get ⟨i, h⟩) = true
        · rw [if_pos hpy] at hm
          refine ih lst (i + 1) _ hsub ?_ m hm
          intro m2 hm2
          rcases List.mem_append.1 hm2 with h1 | h2
          · exact hacc m2 h1
          · have hm2e : m2 = stripPy (lst.get ⟨i, h⟩) :=
              List.mem_singleton.1 h2
            exact ⟨lst.get ⟨i, h⟩, hsub _ (lst.get_mem i h), hxS, hpy, hm2e⟩
        · rw [if_neg hpy] at hm
          exact ih lst (i + 1) acc hsub hacc m hm
    · rw [dif_neg h] at hm
      exact hacc m hm

/-- C8 counterexample.  On the listing containing the single file
`__pycache__.py`, discovery returns the module name `__pycache__` — which
is in the ignore set — because the ignore filter compares raw file names
before the `.py` suffix is stripped. -/
theorem c8_counterexample :
    get_sub_processes_names ["__pycache__.py"] = ["__pycache__"]
      ∧ "__pycache__" ∈ FILES_TO_IGNORE := by
  constructor
  · rfl
  · decide

/-- C8 amended: the ignore filter is applied to raw file names before the
`.py` suffix is stripped: every module name returned by the discovery loop
is obtained from a listed file name that is not itself in the ignore set
and ends in `.py`, by dropping that suffix — but the stripped name handed
to the importer may still be in the ignore set (e.g. `__pycache__.py` →
`__pycache__`). -/
theorem c8_amended (S L : List String) (m : String)
    (h : m ∈ updated_modules S L) :
    ∃ x, x ∈ L ∧ x ∉ S ∧ hasPySuffix x = true ∧ m = stripPy x := by
  rw [updated_modules] at h
  exact modulesLoop_mem S L L.length L 0 [] (fun _ hx => hx)
    (fun m2 hm2 => absurd hm2 (List.not_mem_nil m2)) m h

/-- C8 amended, witnessed on a concrete listing. -/
theorem c8_witness :
    ("b" ∈ updated_modules ["zzz"] ["b.py"])
      ∧ (∃ x, x ∈ ["b.py"] ∧ x ∉ ["zzz"] ∧ hasPySuffix x = true
          ∧ "b" = stripPy x) :=
  ⟨by decide, c8_amended ["zzz"] ["b.py"] "b" (by decide)⟩

/-- Helper: `Custom_Process.start` at time `t` leaves `start_time = t` and
status `"Running"` whether or not the library call raises, and touches
neither `end_time` nor `run_duration`. -/
theorem startM_fields (c : Custom_Process) (t : Int) :
    (c.startM t).2.start_time = some t
      ∧ (c.startM t).2.status = "Running"
      ∧ (c.startM t).2.end_time = c.end_time
      ∧ (c.startM t).2.run_duration = c.run_duration := by
  rcases c with ⟨n, ⟨st, j, e⟩, s, s1, e1, rd⟩
  cases st <;> simp [Custom_Process.startM, MPProcess.startP]

/-- Helper: `join` on a never-started process raises before mutating any
field. -/
theorem joinM_not_started (c : Custom_Process) (t : Int)
    (h : c.process.started = false) : (c.joinM t).2 = c := by
  rcases c with ⟨n, ⟨st, j, e⟩, s, s1, e1, rd⟩
  subst h
  rfl

/-- Helper: `join` on a started process records `end_time`, computes the
duration from the current `start_time`, sets status `"Completed"`, and
leaves `start_time` unchanged. -/
theorem joinM_started (c : Custom_Process) (t : Int)
    (h : c.process.started = true) :
    (c.joinM t).2.status = "Completed"
      ∧ (c.joinM t).2.end_time = some t
      ∧ (c.joinM t).2.run_duration = t - c.start_time.getD 0
      ∧ (c.joinM t).2.start_time = c.start_time := by
  rcases c with ⟨n, ⟨st, j, e⟩, s, s1, e1, rd⟩
  subst h
  exact ⟨rfl, rfl, rfl, rfl⟩

/-- Helper: the duration invariant is preserved by any chronologically
ordered sequence of `start`/`join` calls, as long as `start_time` holds a
timestamp no later than the clock. -/
theorem applyOps_DurInv :
    ∀ (ops : List HOp) (c : Custom_Process) (t : Int),
      chronoB t ops = true →
      (∃ s, c.start_time = some s ∧ s ≤ t) →
      DurInv c → DurInv (applyOps c ops) := by
  intro ops
  induction ops with
  | nil =>
    intro c t _ _ hinv
    exact hinv
  | cons op rest ih =>
    intro c t hch hs hinv
    rw [chronoB, Bool.and_eq_true, decide_eq_true_eq] at hch
    obtain ⟨hle, hch2⟩ := hch
    show DurInv (applyOps (applyH c op) rest)
    cases op with
    | startOp t1 =>
      simp only [HOp.time] at hle
      refine ih (applyH c (.startOp t1)) t1 hch2 ?_ ?_
      · exact ⟨t1, (startM_fields c t1).1, le_refl t1⟩
      · have hst : (applyH c (.startOp t1)).status = "Running" :=
          (startM_fields c t1).2.1
        refine ⟨?_, ?_, ?_⟩
        · intro habs
          rw [hst] at habs
          exact absurd habs (by decide)
        · rw [hst]; decide
        · rw [hst]; decide
    | joinOp t1 =>
      simp only [HOp.time] at hle
      obtain ⟨s, hstime, hsle⟩ := hs
      by_cases hstarted : c.process.started = true
      · have hf := joinM_started c t1 hstarted
        refine ih (applyH c (.joinOp t1)) t1 hch2 ?_ ?_
        · refine ⟨s, ?_, le_trans hsle hle⟩
          show (c.joinM t1).2.start_time = some s
          rw [hf.2.2.2, hstime]
        · refine ⟨?_, ?_, ?_⟩
          · intro _
            constructor
            · show (c.joinM t1).2.run_duration
                = (c.joinM t1).2.end_time.getD 0
                  - (c.joinM t1).2.start_time.getD 0
              rw [hf.2.1, hf.2.2.1, hf.2.2.2, hstime]
              simp
            · show 0 ≤ (c.joinM t1).2.run_duration
              rw [hf.2.2.1, hstime]
              simp
              omega
          · show (c.joinM t1).2.status ≠ "Failed"
            rw [hf.1]; decide
          · show (c.joinM t1).2.status ≠ "Killed"
            rw [hf.1]; decide
      · have hst0 : c.process.started = false := by
          cases hb : c.process.started
          · rfl
          · exact absurd hb hstarted
        have hf := joinM_not_started c t1 hst0
        refine ih (applyH c (.joinOp t1)) t1 hch2 ?_ ?_
        · refine ⟨s, ?_, le_trans hsle hle⟩
          show (c.joinM t1).2.start_time = some s
          rw [hf]; exact hstime
        · show DurInv (c.joinM t1).2
          rw [hf]; exact hinv

/-- C9.  For every handle history that starts from a freshly constructed
`Custom_Process` and applies any chronologically ordered sequence of
`start`/`join` calls, if the handle ends in a terminal status then its
`run_duration` equals `end_time - start_time` and is non-negative (the only
reachable terminal status being `"Completed"`). -/
theorem c9_run_duration (name : String) (p : MPProcess) (t0 : Int)
    (ops : List HOp)
    (hchrono : chronoB t0 ops = true)
    (hterm : isTerminalStr
      (applyOps (Custom_Process.init name p t0) ops).status = true) :
    (applyOps (Custom_Process.init name p t0) ops).run_duration
        = (applyOps (Custom_Process.init name p t0) ops).end_time.getD 0
          - (applyOps (Custom_Process.init name p t0) ops).start_time.getD 0
      ∧ 0 ≤ (applyOps (Custom_Process.init name p t0) ops).run_duration := by
  have hstat : (Custom_Process.init name p t0).status = "Not Started" := rfl
  have hinit : DurInv (Custom_Process.init name p t0) := by
    refine ⟨?_, ?_, ?_⟩
    · intro habs
      rw [hstat] at habs
      exact absurd habs (by decide)
    · rw [hstat]; decide
    · rw [hstat]; decide
  have hinv := applyOps_DurInv ops (Custom_Process.init name p t0) t0 hchrono
    ⟨t0, rfl, le_refl t0⟩ hinit
  obtain ⟨hcomp, hfail, hkill⟩ := hinv
  simp only [isTerminalStr, Bool.or_eq_true, beq_iff_eq] at hterm
  rcases hterm with (h | h) | h
  · exact hcomp h
  · exact absurd h hfail
  · exact absurd h hkill

/-- C9, witnessed on the concrete history start at time 1, join at time 3
from a fresh handle constructed at time 0. -/
theorem c9_witness :
    chronoB 0 [HOp.startOp 1, HOp.joinOp 3] = true
      ∧ isTerminalStr (applyOps (Custom_Process.init "w"
          { started := false, joined := false, exitcode := 0 } 0)
          [HOp.startOp 1, HOp.joinOp 3]).status = true
      ∧ ((applyOps (Custom_Process.init "w"
            { started := false, joined := false, exitcode := 0 } 0)
            [HOp.startOp 1, HOp.joinOp 3]).run_duration
          = (applyOps (Custom_Process.init "w"
              { started := false, joined := false, exitcode := 0 } 0)
              [HOp.startOp 1, HOp.joinOp 3]).end_time.getD 0
            - (applyOps (Custom_Process.init "w"
                { started := false, joined := false, exitcode := 0 } 0)
                [HOp.startOp 1, HOp.joinOp 3]).start_time.getD 0
        ∧ 0 ≤ (applyOps (Custom_Process.init "w"
            { started := false, joined := false, exitcode := 0 } 0)
            [HOp.startOp 1, HOp.joinOp 3]).run_duration) :=
  ⟨by decide, by decide,
   c9_run_duration "w" { started := false, joined := false, exitcode := 0 } 0
     [HOp.startOp 1, HOp.joinOp 3] (by decide) (by decide)⟩
